import Mathlib

/-! The `dr::Ensenso` adapter of `src/ensenso.cpp` (dr_ensenso).

A shallow embedding of the adapter class over a model of the vendor runtime
(NxLib).  The vendor runtime is a tree of items plus a command interpreter; the
adapter only sequences reads, writes and commands.  The embedding keeps

* the item tree as a finite map from paths to scalar leaves,
* the command interpreter as a parameter `Vendor` (any function of the current
  runtime state and the command),
* a log of everything the adapter asks of the runtime, in order,
* C++ exceptions as the `error` branch of `Except`.
-/

set_option autoImplicit false

namespace dr

/-! ## Values and trees of the vendor API -/

/-- A step of an item path: `item["Name"]` or `item[3]`. -/
inductive Key where
  | name (s : String)
  | index (n : Nat)
  deriving DecidableEq, Repr

/-- A path below some item. -/
abbrev Path := List Key

/-! ### Doubles

A finite `double` is `mantissa * 2 ^ exponent`.  The numbers of the item tree are JSON numbers,
hence finite, and the only arithmetic `ensenso.cpp` does on them is one multiplication by the
literal `0.001`, which cannot overflow; so infinities and NaN are left out, and so is the sign of
zero.  Rounding is IEEE 754 binary64 round-to-nearest, ties to even, with gradual underflow. -/

/-- A finite binary64 value, `mantissa * 2 ^ exponent`. -/
structure Double where
  mantissa : Int
  exponent : Int
  deriving DecidableEq, Repr

/-- The position of the leading bit of `n` (0 for `n < 2`), with `fuel` steps. -/
def floorLog2Fuel : Nat → Nat → Nat
  | 0, _ => 0
  | fuel + 1, n => if n < 2 then 0 else 1 + floorLog2Fuel fuel (n / 2)

/-- The position of the leading bit of `n`. -/
def floorLog2 (n : Nat) : Nat := floorLog2Fuel n n

/-- The fraction `n / d` rounded to the nearest integer, ties to the even one. -/
def roundHalfEven (n d : Nat) : Nat :=
  if 2 * (n % d) < d then n / d
  else if d < 2 * (n % d) then n / d + 1
  else if (n / d) % 2 = 0 then n / d else n / d + 1

/-- Numerator and denominator of `p / (d * 2 ^ e)`. -/
def scaleBy (p d : Nat) (e : Int) : Nat × Nat :=
  if 0 ≤ e then (p, d * 2 ^ e.toNat) else (p * 2 ^ (-e).toNat, d)

/-- The exponent of the binary64 grid at the positive number `p / d * 2 ^ k`: the one that puts
the scaled number in `[2^52, 2^53)`, but not below `-1074` (the subnormal grid). -/
def gridExponent (p d : Nat) (k : Int) : Int :=
  let e0 : Int := (floorLog2 p : Int) - (floorLog2 d : Int) + k - 53
  let e1 : Int := if 2 ^ 53 * (scaleBy p d (e0 - k)).2 ≤ (scaleBy p d (e0 - k)).1 then e0 + 1
    else e0
  max e1 (-1074)

/-- The double nearest to `± p / d * 2 ^ k` (`d > 0`), ties to even. -/
def roundToDouble (negative : Bool) (p d : Nat) (k : Int) : Double :=
  if p = 0 then { mantissa := 0, exponent := 0 } else
    let e := gridExponent p d k
    let m := roundHalfEven (scaleBy p d (e - k)).1 (scaleBy p d (e - k)).2
    if m = 0 then { mantissa := 0, exponent := 0 }
    else if m = 2 ^ 53 then
      { mantissa := if negative then -(2 ^ 52) else 2 ^ 52, exponent := e + 1 }
    else { mantissa := if negative then -(m : Int) else (m : Int), exponent := e }

/-- The product `x * y` of two doubles: the exact product, rounded. -/
def Double.mul (x y : Double) : Double :=
  roundToDouble (xor (decide (x.mantissa < 0)) (decide (y.mantissa < 0)))
    (x.mantissa.natAbs * y.mantissa.natAbs) 1 (x.exponent + y.exponent)

/-- The double an integer literal denotes (exact below `2^53`). -/
def Double.ofInt (i : Int) : Double :=
  roundToDouble (decide (i < 0)) i.natAbs 1 0

/-- The literal `0.001`: the double nearest to `1/1000`. -/
def Double.milli : Double := roundToDouble false 1 1000 0

/-- Three doubles. -/
structure Vec3 where
  x : Double
  y : Double
  z : Double
  deriving DecidableEq

/-- A vendor pose item: a rotation (angle and axis) and a translation in millimetres. -/
structure NxPose where
  angle : Double
  axis : Vec3
  translation : Vec3
  deriving DecidableEq

/-- A binary buffer of the vendor API as `getBinaryDataInfo` describes it, with its
pixels (one list of channel values per pixel). -/
structure Buffer where
  width : Int
  height : Int
  channels : Nat
  pixels : List (List Nat)
  deriving DecidableEq

/-- A leaf of the item tree. -/
inductive NxValue where
  | null
  | bool (b : Bool)
  | int (i : Int)
  | string (s : String)
  | pose (p : NxPose)
  | binary (b : Buffer)
  deriving DecidableEq

/-- An item tree: the leaves, each under its path. -/
abbrev NxTree := List (Path × NxValue)

/-- The value stored at exactly `p`, `item.as<T>()` before the type check. -/
def NxTree.read (t : NxTree) (p : Path) : Option NxValue :=
  (t.find? (fun e => decide (e.1 = p))).map Prod.snd

/-- The test `item.exists()`: some leaf lies at or below `p`. -/
def NxTree.itemExists (t : NxTree) (p : Path) : Bool :=
  t.any (fun e => p.isPrefixOf e.1)

/-- The call `item.erase()`: drops every leaf at or below `p`. -/
def NxTree.erase (t : NxTree) (p : Path) : NxTree :=
  t.filter (fun e => !(p.isPrefixOf e.1))

/-- The assignment `item = v`: the leaf at `p` becomes `v`; what was stored below `p`, or at
an ancestor of `p` as a scalar, is replaced. -/
def NxTree.write (t : NxTree) (p : Path) (v : NxValue) : NxTree :=
  (p, v) :: t.filter (fun e => !(p.isPrefixOf e.1) && !(e.1.isPrefixOf p))

/-! ## Vendor constants (names only matter up to distinctness) -/

def valStereo : String := "Stereo"
def valMonocular : String := "Monocular"

def cmdOpen : String := "Open"
def cmdClose : String := "Close"
def cmdTrigger : String := "Trigger"
def cmdCapture : String := "Capture"
def cmdRetrieve : String := "Retrieve"
def cmdDiscardPatterns : String := "DiscardPatterns"
def cmdCollectPattern : String := "CollectPattern"
def cmdEstimatePatternPose : String := "EstimatePatternPose"
def cmdComputeDisparityMap : String := "ComputeDisparityMap"
def cmdComputePointMap : String := "ComputePointMap"

def itmCameras : Key := .name "Cameras"
def itmTimeout : Key := .name "Timeout"
def itmTriggered : Key := .name "Triggered"
def itmDecodeData : Key := .name "DecodeData"
def itmPatternPose : Key := .name "PatternPose"
def itmParameters : Key := .name "Parameters"
def itmCapture : Key := .name "Capture"
def itmProjector : Key := .name "Projector"
def itmFrontLight : Key := .name "FrontLight"
def itmImages : Key := .name "Images"
def itmRaw : Key := .name "Raw"
def itmLeft : Key := .name "Left"
def itmPointMap : Key := .name "PointMap"
def itmDisparityMap : Key := .name "DisparityMap"
def itmAreaOfInterest : Key := .name "AreaOfInterest"
def itmUseDisparityMapAreaOfInterest : Key := .name "UseDisparityMapAreaOfInterest"
def itmLeftTop : Key := .name "LeftTop"
def itmRightBottom : Key := .name "RightBottom"

/-! ## The runtime -/

/-- A node of `root[itmCameras][itmBySerialNo]`: what enumeration shows of a device. -/
structure Camera where
  serialNumber : String
  type : String
  deriving DecidableEq, Repr

/-- An item handle held by the adapter: `cams[n]`, or the root of the tree. A member that is
never assigned is a default-constructed `NxLibItem`, which refers to the root (line 19 uses the
never-assigned member `root` so). -/
inductive NxLibItem where
  | root
  | camera (n : Nat)
  deriving DecidableEq, Repr

/-- A command object: its name and its parameter subtree. -/
structure NxLibCommand where
  name : String
  parameters : NxTree
  deriving DecidableEq

/-- What the adapter asks of the runtime. -/
inductive NxEvent where
  | init
  | finalize
  | command (c : NxLibCommand)
  | assign (item : NxLibItem) (p : Path) (v : NxValue)
  | erase (item : NxLibItem) (p : Path)
  deriving DecidableEq

/-- The runtime state: the enumerated devices, the subtree below each handle, and the log of
requests so far. -/
structure NxLib where
  cameras : List Camera
  nodes : NxLibItem → NxTree
  log : List NxEvent

/-- The command interpreter of the vendor: from the runtime state and a command to an error
code or the command's result subtree, and the item trees afterwards. -/
structure Vendor where
  execute : NxLib → NxLibCommand → Except Int NxTree × (NxLibItem → NxTree)

/-- The exceptions the adapter raises. -/
inductive Error where
  | runtime_error (what : String)
  | NxCommandError (command : String) (code : Int)
  | NxError (what : String)
  | NxLibException (what : String)
  | cvException (what : String)
  deriving DecidableEq, Repr

/-- A computation against the runtime that may raise. -/
def NxM (α : Type) : Type := NxLib → Except Error α × NxLib

namespace NxM

variable {α β : Type}

def pure (a : α) : NxM α := fun w => (.ok a, w)

def bind (m : NxM α) (f : α → NxM β) : NxM β := fun w =>
  match m w with
  | (.ok a, w1) => f a w1
  | (.error e, w1) => (.error e, w1)

def raise (e : Error) : NxM α := fun w => (.error e, w)

instance : Monad NxM where
  pure := NxM.pure
  bind := NxM.bind

end NxM

/-- Appends a request to the log. -/
def logEvent (e : NxEvent) : NxM Unit := fun w =>
  (.ok (), { w with log := w.log ++ [e] })

/-- The call `nxLibInitialize()`. -/
def nxLibInitialize : NxM Unit := logEvent .init

/-- The call `nxLibFinalize()`. -/
def nxLibFinalize : NxM Unit := logEvent .finalize

/-- Modelled from the spec: `executeNx` of the missing `util.hpp`. It executes the command and,
when the vendor call reports an error code, raises ("wrapped and re-raised with context (the
failing item/command) rather than swallowed"); otherwise the command's result is available. -/
def executeNx (V : Vendor) (c : NxLibCommand) : NxM NxTree := fun w =>
  let w1 : NxLib := { w with log := w.log ++ [.command c] }
  match V.execute w c with
  | (.ok r, nodes) => (.ok r, { w1 with nodes := nodes })
  | (.error code, nodes) => (.error (.NxCommandError c.name code), { w1 with nodes := nodes })

/-- Modelled from the spec: `setNx` of the missing `util.hpp`, and the assignment `item = value`:
writes a typed value into the tree below a handle. -/
def setNx (item : NxLibItem) (p : Path) (v : NxValue) : NxM Unit := fun w =>
  (.ok (), { w with
    nodes := fun i => if i = item then (w.nodes i).write p v else w.nodes i
    log := w.log ++ [.assign item p v] })

/-- The test `item[...].exists()` below a handle. -/
def existsNx (item : NxLibItem) (p : Path) : NxM Bool := fun w =>
  (.ok ((w.nodes item).itemExists p), w)

/-- The call `item[...].erase()` below a handle. -/
def eraseNx (item : NxLibItem) (p : Path) : NxM Unit := fun w =>
  (.ok (), { w with
    nodes := fun i => if i = item then (w.nodes i).erase p else w.nodes i
    log := w.log ++ [.erase item p] })

/-- Modelled from the spec: `getNx<bool>` of the missing `util.hpp` on a command result: the
boolean at the path, an `NxError` when there is none. -/
def getNxBool (t : NxTree) (p : Path) : NxM Bool :=
  match t.read p with
  | some (.bool b) => NxM.pure b
  | _ => NxM.raise (.NxError "getNx<bool>")

/-- The enumerated device a handle refers to; the root is no device. -/
def deviceOf (w : NxLib) : NxLibItem → Option Camera
  | .root => none
  | .camera n => w.cameras[n]?

/-- The test `item.exists()` on a handle: the root always exists, `cams[n]` exists when the
device is enumerated. -/
def cameraExists (item : NxLibItem) : NxM Bool := fun w =>
  match item with
  | .root => (.ok true, w)
  | .camera n => (.ok (decide (n < w.cameras.length)), w)

/-- The read `item[itmType]`, as the comparisons with `valStereo` and `valMonocular` read it;
the root has no item `Type`, and comparing an item that does not exist raises the vendor
exception. -/
def cameraType (item : NxLibItem) : NxM String := fun w =>
  match deviceOf w item with
  | some c => (.ok c.type, w)
  | none => (.error (.NxLibException "Type"), w)

/-- The read `item[itmSerialNumber].asString()`, also through `getNx<std::string>`. -/
def cameraSerial (item : NxLibItem) : NxM String := fun w =>
  match deviceOf w item with
  | some c => (.ok c.serialNumber, w)
  | none => (.error (.NxError "SerialNumber"), w)

/-- The call `cams.count()`. -/
def camerasCount : NxM Nat := fun w => (.ok w.cameras.length, w)

/-! ## The adapter -/

/-- The members of `dr::Ensenso` that `ensenso.cpp` uses. -/
structure Ensenso where
  ensenso_camera : NxLibItem
  overlay_camera : NxLibItem
  found_overlay : Bool
  deriving DecidableEq, Repr

/-- The command `Open` with `parameters()[itmCameras] = serial`. -/
def openCommand (serial : String) : NxLibCommand :=
  { name := cmdOpen, parameters := NxTree.write [] [itmCameras] (.string serial) }

/-- The body of the constructor's loop at index `n` (lines 23-33). -/
def constructorBody (V : Vendor) (connect_overlay : Bool) (n : Nat) (self : Ensenso) :
    NxM Ensenso := do
  let type ← cameraType (.camera n)
  if type == valStereo then
    pure { self with ensenso_camera := .camera n }
  else if type == valMonocular && connect_overlay then
    let self1 : Ensenso := { self with overlay_camera := .camera n, found_overlay := true }
    let serial ← cameraSerial self1.overlay_camera
    let _ ← executeNx V (openCommand serial)
    pure self1
  else
    pure self

/-- The constructor's loop `for (n = 0; n < k; n++)`: iterations `0 .. k-1`, in order. -/
def constructorLoop (V : Vendor) (connect_overlay : Bool) : Nat → Ensenso → NxM Ensenso
  | 0, self => pure self
  | k + 1, self => do
    let self1 ← constructorLoop V connect_overlay k self
    constructorBody V connect_overlay k self1

/-- The message of the exception of line 38. -/
def configurationError : Error :=
  .runtime_error "Please connect a single stereo camera to your computer."

/-- The constructor `Ensenso::Ensenso(bool connect_overlay)`; an exception leaves no adapter. -/
def Ensenso.new (V : Vendor) (connect_overlay : Bool) : NxM Ensenso := do
  nxLibInitialize
  let count ← camerasCount
  let self ← constructorLoop V connect_overlay count
    { ensenso_camera := .root, overlay_camera := .root, found_overlay := false }
  let found ← cameraExists self.ensenso_camera
  let bad ← (if !found then pure true else do
    let type ← cameraType self.ensenso_camera
    pure (type != valStereo) : NxM Bool)
  if bad then NxM.raise configurationError else do
    let serial ← cameraSerial self.ensenso_camera
    let _ ← executeNx V (openCommand serial)
    pure self

/-- The destructor `Ensenso::~Ensenso()` (lines 48-51). -/
def Ensenso.destroy (V : Vendor) (_self : Ensenso) : NxM Unit := do
  let _ ← executeNx V { name := cmdClose, parameters := [] }
  nxLibFinalize

/-- Modelled from the spec: `getSerialNumber()` of the missing `ensenso.hpp`, the serial number
of the stereo camera (the "device serial" a command names for the primary device). -/
def Ensenso.getSerialNumber (self : Ensenso) : NxM String :=
  cameraSerial self.ensenso_camera

/-- Modelled from the spec: `getOverlaySerialNumber()` of the missing `ensenso.hpp`, the serial
number of the overlay camera. -/
def Ensenso.getOverlaySerialNumber (self : Ensenso) : NxM String :=
  cameraSerial self.overlay_camera

/-- The two lines that fill `parameters()[itmCameras]` (lines 56-57 and 69-70). -/
def Ensenso.setCameras (self : Ensenso) (stereo overlay : Bool) (parameters : NxTree) :
    NxM NxTree := do
  let p1 ← (if stereo then do
      let serial ← self.getSerialNumber
      pure (parameters.write [itmCameras, .index 0] (.string serial))
    else pure parameters : NxM NxTree)
  (if overlay then do
      let serial ← cameraSerial self.overlay_camera
      pure (p1.write [itmCameras, .index (if stereo then 1 else 0)] (.string serial))
    else pure p1 : NxM NxTree)

/-- The condition `flag && !getNx<bool>(command.result()[serial]...)` of lines 60-61 and 73-74;
the result is read only when `flag` is set. -/
def deviceFailed (flag : Bool) (serial : NxM String) (result : NxTree) (sub : Path) :
    NxM Bool :=
  if flag then do
    let s ← serial
    let b ← getNxBool result (.name s :: sub)
    pure (!b)
  else pure false

/-- The two checks of a command result (lines 60-62 with `sub = [itmTriggered]`, lines 73-75
with `sub = []`). -/
def Ensenso.checkResult (self : Ensenso) (stereo overlay : Bool) (result : NxTree)
    (sub : Path) : NxM Bool := do
  let failed ← deviceFailed stereo self.getSerialNumber result sub
  if failed then pure false else do
    let failed1 ← deviceFailed overlay self.getOverlaySerialNumber result sub
    if failed1 then pure false else pure true

/-- The method `Ensenso::trigger(bool stereo, bool overlay)` (lines 52-63). -/
def Ensenso.trigger (V : Vendor) (self : Ensenso) (stereo overlay : Bool) : NxM Bool := do
  let overlay := overlay && self.found_overlay
  let parameters ← self.setCameras stereo overlay []
  let result ← executeNx V { name := cmdTrigger, parameters := parameters }
  self.checkResult stereo overlay result [itmTriggered]

/-- The conversion `int(timeout)` of an `unsigned int`. -/
def toInt (timeout : Nat) : Int :=
  if timeout % 2 ^ 32 < 2 ^ 31 then (timeout % 2 ^ 32 : Nat) else (timeout % 2 ^ 32 : Nat) - 2 ^ 32

/-- The method `Ensenso::retrieve(bool trigger, unsigned int timeout, bool stereo, bool overlay)`
(lines 65-76). -/
def Ensenso.retrieve (V : Vendor) (self : Ensenso) (trigger : Bool) (timeout : Nat)
    (stereo overlay : Bool) : NxM Bool := do
  let p0 := NxTree.write [] [itmTimeout] (.int (toInt timeout))
  let parameters ← self.setCameras stereo overlay p0
  let result ← executeNx V
    { name := if trigger then cmdCapture else cmdRetrieve, parameters := parameters }
  self.checkResult stereo overlay result []

/-- The default arguments of `retrieve`, declared in the missing `ensenso.hpp`. -/
structure RetrieveDefaults where
  trigger : Bool
  timeout : Nat
  stereo : Bool
  overlay : Bool

/-- A rigid transform: rotation (angle and axis) and translation. -/
structure Isometry3d where
  angle : Double
  axis : Vec3
  translation : Vec3
  deriving DecidableEq

/-- Modelled from the spec: `toEigenIsometry` of the missing `eigen.hpp`, which "converts the
... pattern pose into a ... 3D rigid transform": same rotation, same translation. -/
def toEigenIsometry (t : NxTree) (p : Path) : NxM Isometry3d :=
  match t.read p with
  | some (.pose q) => NxM.pure { angle := q.angle, axis := q.axis, translation := q.translation }
  | _ => NxM.raise (.NxError "toEigenIsometry")

/-- The scaling `translation() *= c`: each component is multiplied by `c`, in doubles. -/
def Vec3.scale (v : Vec3) (c : Double) : Vec3 :=
  { x := v.x.mul c, y := v.y.mul c, z := v.z.mul c }

/-- The path of the stereo camera's capture parameters. -/
def captureParameter (k : Key) : Path := [itmParameters, itmCapture, k]

/-- The command `CollectPattern` with the two parameters of lines 95-96. -/
def collectPatternCommand (serial : String) : NxLibCommand :=
  { name := cmdCollectPattern
    parameters :=
      (NxTree.write [] [itmCameras] (.string serial)).write [itmDecodeData] (.bool true) }

/-- The body of the loop of `calibrate` (lines 82-97). -/
def calibrateBody (V : Vendor) (self : Ensenso) : NxM Unit := do
  setNx self.ensenso_camera (captureParameter itmProjector) (.bool false)
  setNx self.ensenso_camera (captureParameter itmFrontLight) (.bool true)
  let _ ← self.retrieve V true 1500 true false
  let _ ← executeNx V { name := cmdCapture, parameters := [] }
  setNx self.ensenso_camera (captureParameter itmFrontLight) (.bool false)
  setNx self.ensenso_camera (captureParameter itmProjector) (.bool true)
  let serial ← self.getSerialNumber
  let _ ← executeNx V (collectPatternCommand serial)
  pure ()

/-- The loop `for (i = 0; i < k; ++i)` of `calibrate`. -/
def calibrateLoop (V : Vendor) (self : Ensenso) : Nat → NxM Unit
  | 0 => pure ()
  | k + 1 => do
    calibrateLoop V self k
    calibrateBody V self

/-- The method `Ensenso::calibrate(int num_patterns, Isometry3d & pose)` (lines 78-105); the
pose written through the reference is the value returned. -/
def Ensenso.calibrate (V : Vendor) (self : Ensenso) (num_patterns : Int) : NxM Isometry3d := do
  let _ ← executeNx V { name := cmdDiscardPatterns, parameters := [] }
  calibrateLoop V self num_patterns.toNat
  let result ← executeNx V { name := cmdEstimatePatternPose, parameters := [] }
  let pose ← toEigenIsometry result [.name "Patterns", .index 0, itmPatternPose]
  pure { pose with translation := pose.translation.scale Double.milli }

/-- The type `cv::Size`. -/
structure Size where
  width : Int
  height : Int
  deriving DecidableEq, Repr

/-- The call `item.getBinaryDataInfo(&width, &height, 0, 0, 0, 0)` below a handle. -/
def getBinaryDataInfo (item : NxLibItem) (p : Path) : NxM Size := fun w =>
  match (w.nodes item).read p with
  | some (.binary b) => (.ok { width := b.width, height := b.height }, w)
  | _ => (.error (.NxLibException "getBinaryDataInfo"), w)

/-- The `try ... catch (NxLibException const & e) { throw NxError(e); }` of lines 110-114. -/
def wrapNxLibException {α : Type} (m : NxM α) : NxM α := fun w =>
  match m w with
  | (.error (.NxLibException what), w1) => (.error (.NxError what), w1)
  | r => r

/-- The method `Ensenso::getIntensitySize()` (lines 107-117). -/
def Ensenso.getIntensitySize (self : Ensenso) : NxM Size :=
  wrapNxLibException (getBinaryDataInfo self.overlay_camera [itmImages, itmRaw])

/-- The method `Ensenso::getPointCloudSize()` (lines 119-123). -/
def Ensenso.getPointCloudSize (self : Ensenso) : NxM Size :=
  getBinaryDataInfo self.ensenso_camera [itmImages, itmPointMap]

/-- The type `cv::Mat`, as far as size, channel count and pixels go. -/
structure Mat where
  cols : Int
  rows : Int
  channels : Nat
  pixels : List (List Nat)
  deriving DecidableEq

/-- The size `cv::Mat::size()`. -/
def Mat.size (m : Mat) : Size := { width := m.cols, height := m.rows }

/-- Modelled from the spec: `toCvMat` of the missing `opencv.hpp`, which converts a vendor binary
buffer into an image container of the same dimensions. -/
def toCvMat (item : NxLibItem) (p : Path) : NxM Mat := fun w =>
  match (w.nodes item).read p with
  | some (.binary b) =>
    (.ok { cols := b.width, rows := b.height, channels := b.channels, pixels := b.pixels }, w)
  | _ => (.error (.NxError "toCvMat"), w)

/-- The two conversion codes `ensenso.cpp` passes to `cv::cvtColor`. -/
inductive ColorConversion where
  | COLOR_RGB2BGR
  | COLOR_GRAY2BGR
  deriving DecidableEq

/-- The call `cv::cvtColor(src, dst, code)`: a three-channel image of the size of `src`; the
source must have the channel count the code expects. -/
def cvtColor (src : Mat) : ColorConversion → NxM Mat
  | .COLOR_RGB2BGR =>
    if src.channels = 3 then
      NxM.pure { src with pixels := src.pixels.map List.reverse }
    else NxM.raise (.cvException "cvtColor")
  | .COLOR_GRAY2BGR =>
    if src.channels = 1 then
      NxM.pure { src with channels := 3, pixels := src.pixels.map (fun p => p ++ p ++ p) }
    else NxM.raise (.cvException "cvtColor")

/-- The method `Ensenso::loadIntensity(cv::Mat & intensity, bool capture)` (lines 125-134); the
image written through the reference is the value returned. -/
def Ensenso.loadIntensity (V : Vendor) (self : Ensenso) (capture : Bool) : NxM Mat := do
  if capture then
    let _ ← self.retrieve V true 1500 (!self.found_overlay) self.found_overlay
  if self.found_overlay then
    let m ← toCvMat self.overlay_camera [itmImages, itmRaw]
    cvtColor m .COLOR_RGB2BGR
  else
    let m ← toCvMat self.ensenso_camera [itmImages, itmRaw, itmLeft]
    cvtColor m .COLOR_GRAY2BGR

/-- The value an `int` holds when its arithmetic yields `i`: `i` wrapped to 32 bits, two's
complement. -/
def wrapInt (i : Int) : Int := (i + 2 ^ 31) % 2 ^ 32 - 2 ^ 31

/-- The type `cv::Rect`, four `int` fields. -/
structure Rect where
  x : Int
  y : Int
  width : Int
  height : Int
  deriving DecidableEq, Repr

/-- The type `cv::Point`. -/
structure Point where
  x : Int
  y : Int
  deriving DecidableEq, Repr

/-- The area `cv::Rect::area()`, `width * height` in `int`. -/
def Rect.area (r : Rect) : Int := wrapInt (r.width * r.height)

/-- The corner `cv::Rect::tl()`. -/
def Rect.tl (r : Rect) : Point := { x := r.x, y := r.y }

/-- The corner `cv::Rect::br()`, `x + width` and `y + height` in `int`. -/
def Rect.br (r : Rect) : Point :=
  { x := wrapInt (r.x + r.width), y := wrapInt (r.y + r.height) }

/-- The path `[itmParameters][itmCapture][itmUseDisparityMapAreaOfInterest]`. -/
def useAreaOfInterest : Path := captureParameter itmUseDisparityMapAreaOfInterest

/-- The path `[itmParameters][itmDisparityMap][itmAreaOfInterest]`. -/
def areaOfInterest : Path := [itmParameters, itmDisparityMap, itmAreaOfInterest]

/-- The method `Ensenso::setRegionOfInterest(cv::Rect const & roi)` (lines 159-174). -/
def Ensenso.setRegionOfInterest (self : Ensenso) (roi : Rect) : NxM Unit := do
  if roi.area == 0 then
    setNx self.ensenso_camera useAreaOfInterest (.bool false)
    let present ← existsNx self.ensenso_camera areaOfInterest
    if present then
      eraseNx self.ensenso_camera areaOfInterest
  else
    setNx self.ensenso_camera useAreaOfInterest (.bool true)
    setNx self.ensenso_camera (areaOfInterest ++ [itmLeftTop, .index 0]) (.int roi.tl.x)
    setNx self.ensenso_camera (areaOfInterest ++ [itmLeftTop, .index 1]) (.int roi.tl.y)
    setNx self.ensenso_camera (areaOfInterest ++ [itmRightBottom, .index 0]) (.int roi.br.x)
    setNx self.ensenso_camera (areaOfInterest ++ [itmRightBottom, .index 1]) (.int roi.br.y)

/-- The type `PointCloudCamera::PointCloud`: an organised grid of points. -/
structure PointCloud where
  width : Int
  height : Int
  points : List (List Nat)
  deriving DecidableEq

/-- Modelled from the spec: `toPointCloud` of the missing `pcl.hpp`, which "converts the
resulting binary point-map buffer into the output point cloud structure". -/
def toPointCloud (item : NxLibItem) (p : Path) : NxM PointCloud := fun w =>
  match (w.nodes item).read p with
  | some (.binary b) => (.ok { width := b.width, height := b.height, points := b.pixels }, w)
  | _ => (.error (.NxError "toPointCloud"), w)

/-- The method `Ensenso::loadPointCloud(PointCloud & cloud, cv::Rect roi, bool capture)`
(lines 146-157); `defaults` are the default arguments of the call `this->retrieve()`. -/
def Ensenso.loadPointCloud (V : Vendor) (defaults : RetrieveDefaults) (self : Ensenso)
    (roi : Rect) (capture : Bool) : NxM PointCloud := do
  if capture then
    let _ ← self.retrieve V defaults.trigger defaults.timeout defaults.stereo defaults.overlay
  self.setRegionOfInterest roi
  let _ ← executeNx V { name := cmdComputeDisparityMap, parameters := [] }
  let _ ← executeNx V { name := cmdComputePointMap, parameters := [] }
  toPointCloud self.ensenso_camera [itmImages, itmPointMap]

/-! ## Definitions used to state the properties -/

deriving instance DecidableEq for Except

/-- A computation that leaves the runtime state as it found it. -/
def NxM.ReadOnly {α : Type} (m : NxM α) : Prop := ∀ w, (m w).2 = w

/-- Every `Open` command succeeds. -/
def Vendor.opens (V : Vendor) : Prop :=
  ∀ (w : NxLib) (c : NxLibCommand), c.name = cmdOpen → ∃ r, (V.execute w c).1 = .ok r

/-- The number of enumerated devices of type `Stereo`. -/
def stereoCount (cams : List Camera) : Nat :=
  cams.countP (fun c => decide (c.type = valStereo))

/-- The handle of the last device of type `ty` among the first `k` enumerated devices. -/
def lastOfType (ty : String) (cams : List Camera) : Nat → NxLibItem
  | 0 => .root
  | k + 1 => if (cams[k]?).map Camera.type = some ty then .camera k else lastOfType ty cams k

/-- The `Open` commands of the constructor's loop over the devices `cams`. -/
def overlayOpens (co : Bool) (cams : List Camera) : List NxEvent :=
  if co then
    (cams.filter (fun c => decide (c.type = valMonocular))).map
      (fun c => NxEvent.command (openCommand c.serialNumber))
  else []

/-- The members after the constructor's loop has seen the first `k` devices. -/
def membersAfter (co : Bool) (cams : List Camera) (k : Nat) : Ensenso :=
  { ensenso_camera := lastOfType valStereo cams k
    overlay_camera := if co then lastOfType valMonocular cams k else .root
    found_overlay := co && decide (lastOfType valMonocular cams k ≠ .root) }

/-- The elements `item[i], item[i+1], ...` of an array item, up to the first index that holds
no value. -/
def NxTree.arrayFrom (t : NxTree) (p : Path) : Nat → Nat → List NxValue
  | 0, _ => []
  | fuel + 1, i =>
    match t.read (p ++ [.index i]) with
    | some v => v :: NxTree.arrayFrom t p fuel (i + 1)
    | none => []

/-- The elements of the array item at `p`. -/
def NxTree.array (t : NxTree) (p : Path) : List NxValue :=
  t.arrayFrom p t.length 0

/-- The parameter tree that lines 56-57 and 69-70 build from `parameters` when the stereo handle
refers to `cs` and the overlay handle to `co`. -/
def withCameras (parameters : NxTree) (stereo overlay : Bool) (cs co : Camera) : NxTree :=
  if overlay then
    (if stereo then parameters.write [itmCameras, .index 0] (.string cs.serialNumber)
      else parameters).write [itmCameras, .index (if stereo then 1 else 0)]
      (.string co.serialNumber)
  else
    (if stereo then parameters.write [itmCameras, .index 0] (.string cs.serialNumber)
      else parameters)

/-- The commands of a given name among logged requests, in order. -/
def commandsNamed (name : String) (events : List NxEvent) : List NxLibCommand :=
  events.filterMap (fun e =>
    match e with
    | .command c => if c.name = name then some c else none
    | _ => none)

/-- The runtime state in which the loop of `calibrate` issues its capture: after the two
writes of lines 83-84. -/
def frontLit (self : Ensenso) (w : NxLib) : NxLib :=
  (setNx self.ensenso_camera (captureParameter itmFrontLight) (.bool true)
    (setNx self.ensenso_camera (captureParameter itmProjector) (.bool false) w).2).2

/-! ## Concrete devices, runtimes and vendors -/

def stereoA : Camera := { serialNumber := "A", type := valStereo }
def monoB : Camera := { serialNumber := "B", type := valMonocular }
def stereoC : Camera := { serialNumber := "C", type := valStereo }
def monoD : Camera := { serialNumber := "D", type := valMonocular }

/-- A runtime that has just enumerated `cams`: empty item trees, empty log. -/
def freshRuntime (cams : List Camera) : NxLib :=
  { cameras := cams, nodes := fun _ => [], log := [] }

/-- The runtime that has enumerated the stereo device A and the monocular device B. -/
def twoDevices : NxLib := freshRuntime [stereoA, monoB]

/-- The adapter the constructor leaves on `twoDevices` with `connect_overlay = true`. -/
def bothBound : Ensenso :=
  { ensenso_camera := .camera 0, overlay_camera := .camera 1, found_overlay := true }

/-- The adapter the constructor leaves on `twoDevices` with `connect_overlay = false`. -/
def stereoOnly : Ensenso :=
  { ensenso_camera := .camera 0, overlay_camera := .root, found_overlay := false }

/-- A vendor whose commands all succeed with an empty result and leave the trees alone. -/
def quietVendor : Vendor :=
  { execute := fun w _ => (.ok [], w.nodes) }

/-- A vendor whose commands all succeed with the result `r` and leave the trees alone. -/
def replyVendor (r : NxTree) : Vendor :=
  { execute := fun w _ => (.ok r, w.nodes) }

/-- A raw pattern pose: rotation by `0.5` about the z axis, translation `(9, -250, 1500)` mm. -/
def samplePose : NxPose :=
  { angle := { mantissa := 1, exponent := -1 }
    axis := { x := Double.ofInt 0, y := Double.ofInt 0, z := Double.ofInt 1 }
    translation := { x := Double.ofInt 9, y := Double.ofInt (-250), z := Double.ofInt 1500 } }

/-- A vendor whose commands all succeed, whose captures report camera A as not retrieved, and
whose pose estimation reports `samplePose`. -/
def notRetrievedVendor : Vendor :=
  replyVendor [([.name "A"], .bool false), ([.name "Patterns", .index 0, .name "PatternPose"], .pose samplePose)]

/-- A vendor whose `Close` command reports error code 17; every other command succeeds. -/
def closeFailsVendor : Vendor :=
  { execute := fun w c =>
      if c.name = cmdClose then (.error 17, w.nodes) else (.ok [], w.nodes) }

/-- A vendor whose `Capture` command reports error code 17; every other command succeeds. -/
def captureFailsVendor : Vendor :=
  { execute := fun w c =>
      if c.name = cmdCapture then (.error 17, w.nodes) else (.ok [], w.nodes) }

/-- A vendor whose captures report camera A as retrieved until a pattern has been collected,
and report error code 17 from then on; every other command succeeds. -/
def laterCaptureFailsVendor : Vendor :=
  { execute := fun w c =>
      if c.name = cmdCapture ∧ 1 ≤ (commandsNamed cmdCollectPattern w.log).length then
        (.error 17, w.nodes)
      else (.ok [([.name "A"], .bool true)], w.nodes) }

/-- A grey 2x1 left image. -/
def grayBuffer : Buffer :=
  { width := 2, height := 1, channels := 1, pixels := [[10], [20]] }

/-- A 2x1 point map. -/
def pointBuffer : Buffer :=
  { width := 2, height := 1, channels := 3, pixels := [[1, 2, 3], [4, 5, 6]] }

/-- The runtime `twoDevices` after the stereo camera has captured a left image and a point map;
no other handle has images. -/
def imagesRuntime : NxLib :=
  { cameras := [stereoA, monoB]
    nodes := fun i =>
      if i = .camera 0 then
        [([itmImages, itmRaw, itmLeft], .binary grayBuffer),
          ([itmImages, itmPointMap], .binary pointBuffer)]
      else []
    log := [] }

/-- One choice of the default arguments of `retrieve`: `retrieve(true, 1500, true, false)`. -/
def stereoDefaults : RetrieveDefaults :=
  { trigger := true, timeout := 1500, stereo := true, overlay := false }

/-! ## Lemmas -/


section lemmas
variable {α β : Type}

theorem NxM.bind_apply (m : NxM α) (f : α → NxM β) (w : NxLib) :
    (m >>= f) w = match m w with
      | (.ok a, w1) => f a w1
      | (.error e, w1) => (.error e, w1) := rfl

theorem NxM.pure_apply (a : α) (w : NxLib) : (Pure.pure a : NxM α) w = (.ok a, w) := rfl

theorem NxM.bind_ok {m : NxM α} {f : α → NxM β} {w w1 : NxLib} {a : α}
    (h : m w = (.ok a, w1)) : (m >>= f) w = f a w1 := by
  rw [NxM.bind_apply, h]

theorem NxM.bind_error {m : NxM α} {f : α → NxM β} {w w1 : NxLib} {e : Error}
    (h : m w = (.error e, w1)) : (m >>= f) w = (.error e, w1) := by
  rw [NxM.bind_apply, h]
end lemmas

theorem valMonocular_ne_valStereo : valMonocular ≠ valStereo := by decide

theorem executeNx_open {V : Vendor} (hV : V.opens) (serial : String) (w : NxLib) :
    ∃ r w1, executeNx V (openCommand serial) w = (.ok r, w1) ∧ w1.cameras = w.cameras ∧
      w1.log = w.log ++ [.command (openCommand serial)] := by
  obtain ⟨r, hr⟩ := hV w (openCommand serial) rfl
  unfold executeNx
  rcases h : V.execute w (openCommand serial) with ⟨res, nodes⟩
  rw [h] at hr
  simp only at hr
  subst hr
  exact ⟨r, _, rfl, rfl, rfl⟩

theorem constructorBody_spec {V : Vendor} (hV : V.opens) (co : Bool) (n : Nat) (self : Ensenso)
    (w : NxLib) (c : Camera) (hc : w.cameras[n]? = some c) :
    ∃ w1, constructorBody V co n self w =
        (.ok (if c.type = valStereo then { self with ensenso_camera := .camera n }
              else if c.type = valMonocular ∧ co = true then
                { self with overlay_camera := .camera n, found_overlay := true }
              else self), w1) ∧
      w1.cameras = w.cameras ∧
      w1.log = w.log ++ (if c.type ≠ valStereo ∧ c.type = valMonocular ∧ co = true then
        [.command (openCommand c.serialNumber)] else []) := by
  have ht : cameraType (.camera n) w = (.ok c.type, w) := by
    simp [cameraType, deviceOf, hc]
  unfold constructorBody
  rw [NxM.bind_ok ht]
  simp only [beq_iff_eq, Bool.and_eq_true]
  by_cases h1 : c.type = valStereo
  · exact ⟨w, by simp [h1, NxM.pure_apply], rfl, by simp [h1]⟩
  · by_cases h2 : c.type = valMonocular ∧ co = true
    · have hs : cameraSerial (.camera n) w = (.ok c.serialNumber, w) := by
        simp [cameraSerial, deviceOf, hc]
      obtain ⟨r, w1, he, hcam, hlog⟩ := executeNx_open hV c.serialNumber w
      refine ⟨w1, ?_, hcam, ?_⟩
      · rw [if_neg h1, if_pos h2, if_neg h1, if_pos h2, NxM.bind_ok hs, NxM.bind_ok he,
          NxM.pure_apply]
      · rw [hlog, if_pos ⟨h1, h2⟩]
    · refine ⟨w, ?_, rfl, ?_⟩
      · rw [if_neg h1, if_neg h2, if_neg h1, if_neg h2, NxM.pure_apply]
      · rw [if_neg (fun h => h2 h.2), List.append_nil]

theorem lastOfType_root {ty : String} {cams : List Camera} {k : Nat}
    (h : lastOfType ty cams k = .root) (i : Nat) (hi : i < k) (c : Camera)
    (hc : cams[i]? = some c) : c.type ≠ ty := by
  induction k with
  | zero => omega
  | succ k ih =>
    unfold lastOfType at h
    split at h
    · cases h
    · rename_i hne
      rcases Nat.lt_succ_iff_lt_or_eq.mp hi with hlt | heq
      · exact ih h hlt
      · subst heq
        intro hty
        apply hne
        rw [hc, Option.map_some', hty]

theorem lastOfType_camera {ty : String} {cams : List Camera} {k i : Nat}
    (h : lastOfType ty cams k = .camera i) :
    i < k ∧ (∃ c, cams[i]? = some c ∧ c.type = ty) ∧
      ∀ j c, i < j → j < k → cams[j]? = some c → c.type ≠ ty := by
  induction k with
  | zero => cases h
  | succ k ih =>
    unfold lastOfType at h
    split at h
    · rename_i heq
      rw [← NxLibItem.camera.inj h]
      refine ⟨Nat.lt_succ_self _, ?_, fun j c h1 h2 => by omega⟩
      cases hk : cams[k]? with
      | none => rw [hk] at heq; cases heq
      | some c =>
        rw [hk, Option.map_some'] at heq
        exact ⟨c, rfl, Option.some.inj heq⟩
    · rename_i hne
      obtain ⟨h1, h2, h3⟩ := ih h
      refine ⟨Nat.lt_succ_of_lt h1, h2, fun j c hij hjk hc => ?_⟩
      rcases Nat.lt_succ_iff_lt_or_eq.mp hjk with hlt | heq
      · exact h3 j c hij hlt hc
      · subst heq
        intro hty
        apply hne
        rw [hc, Option.map_some', hty]

theorem lastOfType_of_mem {ty : String} {cams : List Camera} {k i : Nat} {c : Camera}
    (hi : i < k) (hc : cams[i]? = some c) (hty : c.type = ty) :
    ∃ j, lastOfType ty cams k = .camera j := by
  cases h : lastOfType ty cams k with
  | root => exact absurd hty (lastOfType_root h i hi c hc)
  | camera j => exact ⟨j, rfl⟩

theorem overlayOpens_take_succ (co : Bool) (cams : List Camera) (k : Nat) (c : Camera)
    (hc : cams[k]? = some c) :
    overlayOpens co (cams.take (k + 1)) = overlayOpens co (cams.take k) ++
      (if c.type ≠ valStereo ∧ c.type = valMonocular ∧ co = true then
        [.command (openCommand c.serialNumber)] else []) := by
  rw [List.take_succ, hc]
  unfold overlayOpens
  cases co with
  | false => simp
  | true =>
    by_cases hm : c.type = valMonocular
    · have hs : c.type ≠ valStereo := by rw [hm]; exact valMonocular_ne_valStereo
      simp [hm, valMonocular_ne_valStereo, List.filter_append]
    · simp [hm, List.filter_append]

theorem membersAfter_succ (co : Bool) (cams : List Camera) (k : Nat) (c : Camera)
    (hc : cams[k]? = some c) :
    membersAfter co cams (k + 1) =
      (if c.type = valStereo then { membersAfter co cams k with ensenso_camera := .camera k }
       else if c.type = valMonocular ∧ co = true then
         { membersAfter co cams k with overlay_camera := .camera k, found_overlay := true }
       else membersAfter co cams k) := by
  unfold membersAfter
  simp only [lastOfType, hc, Option.map_some', Option.some.injEq]
  by_cases h1 : c.type = valStereo
  · have h2 : c.type ≠ valMonocular := by rw [h1]; exact fun h => valMonocular_ne_valStereo h.symm
    simp [h1, valMonocular_ne_valStereo.symm]
  · by_cases h2 : c.type = valMonocular
    · cases co <;> simp [h2, valMonocular_ne_valStereo]
    · simp [h1, h2]

theorem constructorLoop_spec {V : Vendor} (hV : V.opens) (co : Bool) (w : NxLib) (k : Nat)
    (hk : k ≤ w.cameras.length) :
    ∃ w1, constructorLoop V co k (membersAfter co w.cameras 0) w =
        (.ok (membersAfter co w.cameras k), w1) ∧
      w1.cameras = w.cameras ∧ w1.log = w.log ++ overlayOpens co (w.cameras.take k) := by
  induction k with
  | zero =>
    refine ⟨w, rfl, rfl, ?_⟩
    cases co <;> simp [overlayOpens]
  | succ k ih =>
    obtain ⟨w1, hloop, hcam, hlog⟩ := ih (Nat.le_of_succ_le hk)
    have hlt : k < w.cameras.length := hk
    have hc : w.cameras[k]? = some (w.cameras[k]) := List.getElem?_eq_getElem hlt
    have hc1 : w1.cameras[k]? = some (w.cameras[k]) := by rw [hcam]; exact hc
    obtain ⟨w2, hbody, hcam2, hlog2⟩ :=
      constructorBody_spec hV co k (membersAfter co w.cameras k) w1 _ hc1
    refine ⟨w2, ?_, hcam2.trans hcam, ?_⟩
    · show (constructorLoop V co k _ >>= fun self1 => constructorBody V co k self1) w = _
      rw [NxM.bind_ok hloop, hbody, membersAfter_succ co w.cameras k _ hc]
    · rw [hlog2, hlog, overlayOpens_take_succ co w.cameras k _ hc, List.append_assoc]

theorem membersAfter_zero (co : Bool) (cams : List Camera) :
    membersAfter co cams 0 =
      { ensenso_camera := .root, overlay_camera := .root, found_overlay := false } := by
  cases co <;> simp [membersAfter, lastOfType]

/-- What the constructor does when every `Open` succeeds: with a stereo device enumerated, it
returns the members the loop leaves and has logged the initialisation, the overlay opens and
the open of the bound stereo device; with none, the stereo handle is still the root and the
comparison of its `Type` on line 37 raises. -/
theorem Ensenso_new_spec {V : Vendor} (hV : V.opens) (co : Bool) (w : NxLib) :
    (∀ i, lastOfType valStereo w.cameras w.cameras.length = .camera i →
      ∃ c w1, w.cameras[i]? = some c ∧
        Ensenso.new V co w = (.ok (membersAfter co w.cameras w.cameras.length), w1) ∧
        w1.cameras = w.cameras ∧
        w1.log = w.log ++ [.init] ++ overlayOpens co w.cameras ++
          [.command (openCommand c.serialNumber)]) ∧
    (lastOfType valStereo w.cameras w.cameras.length = .root →
      ∃ w1, Ensenso.new V co w = (.error (.NxLibException "Type"), w1)) := by
  let w0 : NxLib := { w with log := w.log ++ [.init] }
  have hinit : nxLibInitialize w = (.ok (), w0) := rfl
  have hcount : camerasCount w0 = (.ok w.cameras.length, w0) := rfl
  obtain ⟨w1, hloop, hcam, hlog⟩ := constructorLoop_spec hV co w0 w.cameras.length (le_refl _)
  rw [membersAfter_zero] at hloop
  have hcam1 : w1.cameras = w.cameras := hcam
  have hlog1 : w1.log = w.log ++ [.init] ++ overlayOpens co w.cameras := by
    rw [hlog]
    show w.log ++ [.init] ++ overlayOpens co (w.cameras.take w.cameras.length) = _
    rw [List.take_length]
  have hmem : (membersAfter co w.cameras w.cameras.length).ensenso_camera =
      lastOfType valStereo w.cameras w.cameras.length := rfl
  constructor
  · intro i hi
    obtain ⟨hlt, ⟨c, hc, hty⟩, _⟩ := lastOfType_camera hi
    have hdev : deviceOf w1 (.camera i) = some c := by
      show w1.cameras[i]? = some c
      rw [hcam1]; exact hc
    have hex : cameraExists (.camera i) w1 = (.ok true, w1) := by
      simp [cameraExists, hcam1, hlt]
    have hty1 : cameraType (.camera i) w1 = (.ok c.type, w1) := by
      simp [cameraType, hdev]
    have hser : cameraSerial (.camera i) w1 = (.ok c.serialNumber, w1) := by
      simp [cameraSerial, hdev]
    obtain ⟨r, w2, hex2, hcam2, hlog2⟩ := executeNx_open hV c.serialNumber w1
    refine ⟨c, w2, hc, ?_, hcam2.trans hcam1, by rw [hlog2, hlog1]⟩
    unfold Ensenso.new
    rw [NxM.bind_ok hinit, NxM.bind_ok hcount, NxM.bind_ok hloop, hmem, hi, NxM.bind_ok hex]
    simp [NxM.bind_ok hty1, NxM.bind_ok hser, NxM.bind_ok hex2, NxM.pure_apply, hty,
      NxM.bind_apply]
  · intro hi
    have hex : cameraExists .root w1 = (.ok true, w1) := rfl
    have hty1 : cameraType .root w1 = (.error (.NxLibException "Type"), w1) := rfl
    refine ⟨w1, ?_⟩
    unfold Ensenso.new
    rw [NxM.bind_ok hinit, NxM.bind_ok hcount, NxM.bind_ok hloop, hmem, hi, NxM.bind_ok hex]
    simp [NxM.bind_apply, hty1]

theorem find?_filter_of_imp {α : Type} (P Q : α → Bool) (t : List α)
    (h : ∀ e, Q e = true → P e = true) : (t.filter P).find? Q = t.find? Q := by
  induction t with
  | nil => rfl
  | cons a t ih =>
    by_cases hq : Q a = true
    · rw [List.filter_cons_of_pos (h a hq), List.find?_cons_of_pos _ hq,
        List.find?_cons_of_pos _ hq]
    · by_cases hp : P a = true
      · rw [List.filter_cons_of_pos hp, List.find?_cons_of_neg _ hq,
          List.find?_cons_of_neg _ hq, ih]
      · rw [List.filter_cons_of_neg hp, List.find?_cons_of_neg _ hq, ih]

theorem NxTree.read_write_same (t : NxTree) (p : Path) (v : NxValue) :
    (t.write p v).read p = some v := by
  simp [NxTree.read, NxTree.write]

theorem NxTree.read_write_other (t : NxTree) (p q : Path) (v : NxValue)
    (h1 : p.isPrefixOf q = false) (h2 : q.isPrefixOf p = false) :
    (t.write p v).read q = t.read q := by
  have hne : p ≠ q := by
    intro h
    rw [h, List.isPrefixOf_iff_prefix.mpr (List.prefix_refl q)] at h1
    cases h1
  unfold NxTree.read NxTree.write
  rw [List.find?_cons_of_neg _ (by simpa using hne), find?_filter_of_imp]
  intro e he
  have : e.1 = q := of_decide_eq_true he
  simp [this, h1, h2]

theorem NxTree.read_erase_other (t : NxTree) (p q : Path) (h : p.isPrefixOf q = false) :
    (t.erase p).read q = t.read q := by
  unfold NxTree.read NxTree.erase
  rw [find?_filter_of_imp]
  intro e he
  have : e.1 = q := of_decide_eq_true he
  simp [this, h]

theorem NxTree.itemExists_erase (t : NxTree) (p : Path) :
    (t.erase p).itemExists p = false := by
  simp [NxTree.itemExists, NxTree.erase, List.any_eq_false]

theorem deviceOf_congr {w w1 : NxLib} (h : w1.cameras = w.cameras) (item : NxLibItem) :
    deviceOf w1 item = deviceOf w item := by
  cases item with
  | root => rfl
  | camera n => show w1.cameras[n]? = w.cameras[n]?; rw [h]

theorem cameraSerial_of_device {w : NxLib} {item : NxLibItem} {c : Camera}
    (h : deviceOf w item = some c) : cameraSerial item w = (.ok c.serialNumber, w) := by
  simp [cameraSerial, h]

theorem setCameras_spec (self : Ensenso) (stereo overlay : Bool) (parameters : NxTree)
    (w : NxLib) (cs co : Camera)
    (hs : stereo = true → deviceOf w self.ensenso_camera = some cs)
    (ho : overlay = true → deviceOf w self.overlay_camera = some co) :
    self.setCameras stereo overlay parameters w =
      (.ok (withCameras parameters stereo overlay cs co), w) := by
  unfold Ensenso.setCameras Ensenso.getSerialNumber withCameras
  cases stereo <;> cases overlay <;>
    simp [NxM.bind_apply, NxM.pure_apply, cameraSerial_of_device, hs, ho]

theorem getNxBool_of_read {t : NxTree} {p : Path} {b : Bool} (h : t.read p = some (.bool b))
    (w : NxLib) : getNxBool t p w = (.ok b, w) := by
  simp [getNxBool, h, NxM.pure]

theorem checkResult_spec (self : Ensenso) (stereo overlay : Bool) (result : NxTree) (sub : Path)
    (w : NxLib) (cs co : Camera) (bs bo : Bool)
    (hs : stereo = true → deviceOf w self.ensenso_camera = some cs)
    (ho : overlay = true → deviceOf w self.overlay_camera = some co)
    (hbs : stereo = true → result.read (.name cs.serialNumber :: sub) = some (.bool bs))
    (hbo : overlay = true → result.read (.name co.serialNumber :: sub) = some (.bool bo)) :
    self.checkResult stereo overlay result sub w =
      (.ok (!(stereo && !bs) && !(overlay && !bo)), w) := by
  unfold Ensenso.checkResult deviceFailed Ensenso.getSerialNumber Ensenso.getOverlaySerialNumber
  cases stereo <;> cases overlay <;> cases bs <;> cases bo <;>
    simp [NxM.bind_apply, NxM.pure_apply, cameraSerial_of_device, getNxBool_of_read, hs, ho,
      hbs, hbo]

theorem executeNx_ok {V : Vendor} {w : NxLib} {c : NxLibCommand} {r : NxTree}
    (h : (V.execute w c).1 = .ok r) :
    ∃ w1, executeNx V c w = (.ok r, w1) ∧ w1.cameras = w.cameras ∧
      w1.log = w.log ++ [.command c] := by
  unfold executeNx
  rcases hx : V.execute w c with ⟨res, nodes⟩
  rw [hx] at h
  simp only at h
  subst h
  exact ⟨_, rfl, rfl, rfl⟩

theorem executeNx_log (V : Vendor) (c : NxLibCommand) (w : NxLib) :
    (executeNx V c w).2.log = w.log ++ [.command c] ∧
      (executeNx V c w).2.cameras = w.cameras := by
  unfold executeNx
  rcases hx : V.execute w c with ⟨res, nodes⟩
  cases res <;> exact ⟨rfl, rfl⟩

theorem NxM.readOnly_pure {α : Type} (a : α) : NxM.ReadOnly (Pure.pure a : NxM α) :=
  fun _ => rfl

theorem NxM.readOnly_raise {α : Type} (e : Error) : NxM.ReadOnly (NxM.raise e : NxM α) :=
  fun _ => rfl

theorem NxM.readOnly_bind {α β : Type} {m : NxM α} {f : α → NxM β} (hm : NxM.ReadOnly m)
    (hf : ∀ a, NxM.ReadOnly (f a)) : NxM.ReadOnly (m >>= f) := by
  intro w
  rw [NxM.bind_apply]
  have h := hm w
  rcases hx : m w with ⟨res, w1⟩
  rw [hx] at h
  cases res with
  | error e => exact h
  | ok a => exact (hf a w1).trans h

theorem readOnly_cameraSerial (item : NxLibItem) : NxM.ReadOnly (cameraSerial item) := by
  intro w
  unfold cameraSerial
  split <;> rfl

theorem readOnly_getNxBool (t : NxTree) (p : Path) : NxM.ReadOnly (getNxBool t p) := by
  intro w
  unfold getNxBool
  rcases t.read p with _ | v
  · rfl
  · cases v <;> rfl

theorem readOnly_ite {α : Type} (c : Bool) {m1 m2 : NxM α}
    (h1 : NxM.ReadOnly m1) (h2 : NxM.ReadOnly m2) : NxM.ReadOnly (if c then m1 else m2) := by
  split
  · exact h1
  · exact h2

theorem readOnly_deviceFailed (flag : Bool) (item : NxLibItem) (result : NxTree) (sub : Path) :
    NxM.ReadOnly (deviceFailed flag (cameraSerial item) result sub) :=
  readOnly_ite _
    (NxM.readOnly_bind (readOnly_cameraSerial item) (fun _ =>
      NxM.readOnly_bind (readOnly_getNxBool _ _) (fun _ => NxM.readOnly_pure _)))
    (NxM.readOnly_pure _)

theorem checkResult_world (self : Ensenso) (stereo overlay : Bool) (result : NxTree) (sub : Path)
    (w : NxLib) : (self.checkResult stereo overlay result sub w).2 = w := by
  unfold Ensenso.checkResult Ensenso.getSerialNumber Ensenso.getOverlaySerialNumber
  refine NxM.readOnly_bind (readOnly_deviceFailed _ _ _ _) (fun failed => ?_) w
  refine readOnly_ite _ (NxM.readOnly_pure _) ?_
  refine NxM.readOnly_bind (readOnly_deviceFailed _ _ _ _) (fun failed1 => ?_)
  exact readOnly_ite _ (NxM.readOnly_pure _) (NxM.readOnly_pure _)

theorem retrieve_log (V : Vendor) (self : Ensenso) (trigger : Bool) (timeout : Nat)
    (stereo overlay : Bool) (w : NxLib) (cs co : Camera)
    (hs : stereo = true → deviceOf w self.ensenso_camera = some cs)
    (ho : overlay = true → deviceOf w self.overlay_camera = some co) :
    (self.retrieve V trigger timeout stereo overlay w).2.log = w.log ++
      [.command { name := if trigger then cmdCapture else cmdRetrieve
                  parameters := withCameras (NxTree.write [] [itmTimeout] (.int (toInt timeout)))
                    stereo overlay cs co }] ∧
    (self.retrieve V trigger timeout stereo overlay w).2.cameras = w.cameras := by
  have hset := setCameras_spec self stereo overlay
    (NxTree.write [] [itmTimeout] (.int (toInt timeout))) w cs co hs ho
  have hlog := executeNx_log V
    { name := if trigger then cmdCapture else cmdRetrieve
      parameters := withCameras (NxTree.write [] [itmTimeout] (.int (toInt timeout)))
        stereo overlay cs co } w
  unfold Ensenso.retrieve
  rw [NxM.bind_ok hset, NxM.bind_apply]
  rcases hx : executeNx V _ w with ⟨res, w1⟩
  rw [hx] at hlog
  cases res with
  | error e => exact hlog
  | ok r =>
    simp only
    rw [checkResult_world]
    exact hlog

theorem toInt_of_lt (timeout : Nat) (h : timeout < 2 ^ 31) : toInt timeout = timeout := by
  unfold toInt
  have h1 : timeout % 2 ^ 32 = timeout := Nat.mod_eq_of_lt (by omega)
  rw [h1, if_pos h]

theorem withCameras_read_timeout (v : NxValue) (stereo overlay : Bool) (cs co : Camera) :
    (withCameras (NxTree.write [] [itmTimeout] v) stereo overlay cs co).read [itmTimeout] =
      some v := by
  cases stereo <;> cases overlay <;>
    simp [withCameras, NxTree.read, NxTree.write, itmTimeout, itmCameras, List.isPrefixOf]

theorem withCameras_array (v : NxValue) (stereo overlay : Bool) (cs co : Camera) :
    (withCameras (NxTree.write [] [itmTimeout] v) stereo overlay cs co).array [itmCameras] =
      ((if stereo then [cs.serialNumber] else []) ++
        (if overlay then [co.serialNumber] else [])).map NxValue.string := by
  cases stereo <;> cases overlay <;>
    simp [withCameras, NxTree.array, NxTree.arrayFrom, NxTree.read, NxTree.write, itmTimeout,
      itmCameras, List.isPrefixOf]


theorem quietVendor_opens : quietVendor.opens := fun _ _ _ => ⟨[], rfl⟩

theorem stereo_present_iff (cams : List Camera) :
    1 ≤ stereoCount cams ↔ ∃ i, lastOfType valStereo cams cams.length = .camera i := by
  unfold stereoCount
  rw [Nat.succ_le_iff, List.countP_pos_iff]
  constructor
  · rintro ⟨c, hc, hty⟩
    obtain ⟨n, hn⟩ := List.mem_iff_getElem?.mp hc
    have hlt : n < cams.length := by
      by_contra hge
      rw [List.getElem?_eq_none (Nat.le_of_not_lt hge)] at hn
      cases hn
    exact lastOfType_of_mem hlt hn (of_decide_eq_true hty)
  · rintro ⟨i, hi⟩
    obtain ⟨_, ⟨c, hc, hty⟩, _⟩ := lastOfType_camera hi
    exact ⟨c, List.mem_iff_getElem?.mpr ⟨i, hc⟩, decide_eq_true hty⟩

theorem openCommand_eq (serial : String) :
    openCommand serial =
      { name := cmdOpen, parameters := [([itmCameras], .string serial)] } := rfl

theorem openCommand_read (serial : String) :
    (openCommand serial).parameters.read [itmCameras] = some (.string serial) := by
  simp [openCommand, NxTree.read, NxTree.write]

theorem overlayOpens_eq_map (co : Bool) (cams : List Camera) :
    overlayOpens co cams =
      ((if co then cams.filter (fun d => decide (d.type = valMonocular)) else []).map
        (fun d => openCommand d.serialNumber)).map NxEvent.command := by
  cases co <;> simp [overlayOpens, List.map_map, Function.comp_def]

/-- C1, as stated, fails twice. With two stereo devices enumerated (and every command
succeeding) the constructor returns an adapter, bound to the second one. With no stereo device
enumerated the stereo handle is still the root, which exists, so line 37 goes on to compare the
root's `Type`, and the exception raised is the vendor's, not the configuration error. -/
theorem constructor_not_exactly_one_stereo :
    stereoCount (freshRuntime [stereoA, stereoC]).cameras = 2 ∧
    (Ensenso.new quietVendor false (freshRuntime [stereoA, stereoC])).1 =
      .ok { ensenso_camera := .camera 1, overlay_camera := .root, found_overlay := false } ∧
    stereoCount (freshRuntime [monoB]).cameras = 0 ∧
    (Ensenso.new quietVendor false (freshRuntime [monoB])).1 =
      .error (.NxLibException "Type") ∧
    Error.NxLibException "Type" ≠ configurationError := by
  decide

/-- C1, amended: when every `Open` command succeeds, construction succeeds if and only if at
least one enumerated device has type Stereo; with no stereo device it fails, and no adapter is
produced. -/
theorem constructor_succeeds_iff_stereo_present (V : Vendor) (co : Bool) (w : NxLib)
    (hV : V.opens) :
    ((∃ self, (Ensenso.new V co w).1 = .ok self) ↔ 1 ≤ stereoCount w.cameras) ∧
    (stereoCount w.cameras = 0 → ∃ e, (Ensenso.new V co w).1 = .error e) := by
  obtain ⟨hsome, hnone⟩ := Ensenso_new_spec hV co w
  have hzero : stereoCount w.cameras = 0 →
      lastOfType valStereo w.cameras w.cameras.length = .root := by
    intro h0
    cases h : lastOfType valStereo w.cameras w.cameras.length with
    | root => rfl
    | camera i =>
      have := (stereo_present_iff w.cameras).mpr ⟨i, h⟩
      omega
  refine ⟨⟨?_, ?_⟩, ?_⟩
  · rintro ⟨self, hself⟩
    by_contra hcount
    obtain ⟨w1, h1⟩ := hnone (hzero (by omega))
    rw [h1] at hself
    cases hself
  · intro hcount
    obtain ⟨i, hi⟩ := (stereo_present_iff w.cameras).mp hcount
    obtain ⟨c, w1, _, hnew, _⟩ := hsome i hi
    exact ⟨_, by rw [hnew]⟩
  · intro h0
    obtain ⟨w1, h1⟩ := hnone (hzero h0)
    exact ⟨_, by rw [h1]⟩

theorem constructor_succeeds_iff_stereo_present_witness :
    quietVendor.opens ∧
    ((∃ self, (Ensenso.new quietVendor true (freshRuntime [stereoA, monoB])).1 = .ok self) ↔
        1 ≤ stereoCount (freshRuntime [stereoA, monoB]).cameras) ∧
    (stereoCount (freshRuntime [stereoA, monoB]).cameras = 0 →
      ∃ e, (Ensenso.new quietVendor true (freshRuntime [stereoA, monoB])).1 = .error e) :=
  ⟨quietVendor_opens,
    constructor_succeeds_iff_stereo_present quietVendor true (freshRuntime [stereoA, monoB])
      quietVendor_opens⟩

/-- C2, as stated, fails: on the devices stereo A, monocular B, stereo C, monocular D the
constructor binds the primary camera to C (index 2, not the first stereo device A), the overlay
camera to D (index 3, not the first monocular device B), and opens both B and D. -/
theorem constructor_binds_last_not_first :
    (Ensenso.new quietVendor true (freshRuntime [stereoA, monoB, stereoC, monoD])).1 =
      .ok { ensenso_camera := .camera 2, overlay_camera := .camera 3, found_overlay := true } ∧
    (Ensenso.new quietVendor true (freshRuntime [stereoA, monoB, stereoC, monoD])).2.log =
      [.init, .command { name := cmdOpen, parameters := [([itmCameras], .string "B")] },
        .command { name := cmdOpen, parameters := [([itmCameras], .string "D")] },
        .command { name := cmdOpen, parameters := [([itmCameras], .string "C")] }] := by
  decide

/-- C2, amended: when every `Open` command succeeds and a stereo device is enumerated, the
constructor binds the primary camera to the last stereo-type device in enumeration order;
when `connect_overlay` is set and a monocular device is enumerated, it binds the overlay camera
to the last monocular-type device; and with `connect_overlay` set it opens every monocular-type
device, in enumeration order, before it opens the bound stereo device: after the
initialisation the log holds the commands `opens` and then `last`, each an `Open` whose
`Cameras` parameter reads back as the serial of the device it opens. -/
theorem constructor_binds_last (V : Vendor) (co : Bool) (w : NxLib) (hV : V.opens)
    (hst : 1 ≤ stereoCount w.cameras) :
    ∃ (self : Ensenso) (w1 : NxLib) (i : Nat) (c : Camera) (opens : List NxLibCommand)
        (last : NxLibCommand),
      Ensenso.new V co w = (.ok self, w1) ∧
      self.ensenso_camera = .camera i ∧ w.cameras[i]? = some c ∧ c.type = valStereo ∧
      (∀ j d, i < j → w.cameras[j]? = some d → d.type ≠ valStereo) ∧
      ((co = true ∧ ∃ m ∈ w.cameras, m.type = valMonocular) →
        ∃ k m, self.overlay_camera = .camera k ∧ w.cameras[k]? = some m ∧
          m.type = valMonocular ∧
          ∀ j d, k < j → w.cameras[j]? = some d → d.type ≠ valMonocular) ∧
      w1.log = w.log ++ [.init] ++ opens.map NxEvent.command ++ [.command last] ∧
      opens.map (fun o => (o.name, o.parameters, o.parameters.read [itmCameras])) =
        (if co then w.cameras.filter (fun d => decide (d.type = valMonocular)) else []).map
          (fun d => (cmdOpen, [([itmCameras], NxValue.string d.serialNumber)],
            some (NxValue.string d.serialNumber))) ∧
      last.name = cmdOpen ∧
      last.parameters = [([itmCameras], .string c.serialNumber)] ∧
      last.parameters.read [itmCameras] = some (.string c.serialNumber) := by
  have hlen : ∀ {j : Nat} {d : Camera}, w.cameras[j]? = some d → j < w.cameras.length := by
    intro j d hj
    by_contra hge
    rw [List.getElem?_eq_none (Nat.le_of_not_lt hge)] at hj
    cases hj
  obtain ⟨i, hi⟩ := (stereo_present_iff w.cameras).mp hst
  obtain ⟨c, w1, hc, hnew, _, hlog⟩ := (Ensenso_new_spec hV co w).1 i hi
  obtain ⟨_, ⟨c1, hc1, hty⟩, hlast⟩ := lastOfType_camera hi
  have hcc : c1 = c := Option.some.inj (hc1.symm.trans hc)
  subst hcc
  refine ⟨_, w1, i, c1,
    (if co then w.cameras.filter (fun d => decide (d.type = valMonocular)) else []).map
      (fun d => openCommand d.serialNumber),
    openCommand c1.serialNumber, hnew, hi, hc, hty,
    fun j d hij hd => hlast j d hij (hlen hd) hd, ?_, ?_, ?_, rfl, rfl,
    openCommand_read _⟩
  · rintro ⟨hco, m, hm, hmty⟩
    obtain ⟨n, hn⟩ := List.mem_iff_getElem?.mp hm
    obtain ⟨k, hk⟩ := lastOfType_of_mem (hlen hn) hn hmty
    obtain ⟨_, ⟨m1, hm1, hm1ty⟩, hlastm⟩ := lastOfType_camera hk
    refine ⟨k, m1, ?_, hm1, hm1ty, fun j d hkj hd => hlastm j d hkj (hlen hd) hd⟩
    show (if co = true then lastOfType valMonocular w.cameras w.cameras.length
      else NxLibItem.root) = _
    rw [if_pos hco, hk]
  · rw [hlog, overlayOpens_eq_map]
  · rw [List.map_map]
    apply List.map_congr_left
    intro d _
    simp only [Function.comp_apply, openCommand_eq, Prod.mk.injEq, true_and]
    exact (openCommand_read d.serialNumber)

theorem constructor_binds_last_witness :
    quietVendor.opens ∧ 1 ≤ stereoCount (freshRuntime [stereoA, monoB, stereoC, monoD]).cameras ∧
    ∃ (self : Ensenso) (w1 : NxLib) (i : Nat) (c : Camera) (opens : List NxLibCommand)
        (last : NxLibCommand),
      Ensenso.new quietVendor true (freshRuntime [stereoA, monoB, stereoC, monoD]) =
        (.ok self, w1) ∧
      self.ensenso_camera = .camera i ∧
      (freshRuntime [stereoA, monoB, stereoC, monoD]).cameras[i]? = some c ∧
      c.type = valStereo ∧
      (∀ j d, i < j → (freshRuntime [stereoA, monoB, stereoC, monoD]).cameras[j]? = some d →
        d.type ≠ valStereo) ∧
      ((true = true ∧ ∃ m ∈ (freshRuntime [stereoA, monoB, stereoC, monoD]).cameras,
          m.type = valMonocular) →
        ∃ k m, self.overlay_camera = .camera k ∧
          (freshRuntime [stereoA, monoB, stereoC, monoD]).cameras[k]? = some m ∧
          m.type = valMonocular ∧
          ∀ j d, k < j → (freshRuntime [stereoA, monoB, stereoC, monoD]).cameras[j]? = some d →
            d.type ≠ valMonocular) ∧
      w1.log = (freshRuntime [stereoA, monoB, stereoC, monoD]).log ++ [.init] ++
        opens.map NxEvent.command ++ [.command last] ∧
      opens.map (fun o => (o.name, o.parameters, o.parameters.read [itmCameras])) =
        (if true then (freshRuntime [stereoA, monoB, stereoC, monoD]).cameras.filter
            (fun d => decide (d.type = valMonocular)) else []).map
          (fun d => (cmdOpen, [([itmCameras], NxValue.string d.serialNumber)],
            some (NxValue.string d.serialNumber))) ∧
      last.name = cmdOpen ∧
      last.parameters = [([itmCameras], .string c.serialNumber)] ∧
      last.parameters.read [itmCameras] = some (.string c.serialNumber) :=
  ⟨quietVendor_opens, by decide,
    constructor_binds_last quietVendor true (freshRuntime [stereoA, monoB, stereoC, monoD])
      quietVendor_opens (by decide)⟩

theorem wrapInt_of_fits (i : Int) (h : -2 ^ 31 ≤ i ∧ i < 2 ^ 31) : wrapInt i = i := by
  unfold wrapInt
  omega

/-- The item tree below the stereo camera after `setRegionOfInterest`. -/
theorem setRegionOfInterest_nodes (self : Ensenso) (roi : Rect) (w : NxLib) :
    (self.setRegionOfInterest roi w).1 = .ok () ∧
    (self.setRegionOfInterest roi w).2.nodes self.ensenso_camera =
      if wrapInt (roi.width * roi.height) = 0 then
        if ((w.nodes self.ensenso_camera).write useAreaOfInterest (.bool false)).itemExists
            areaOfInterest
        then ((w.nodes self.ensenso_camera).write useAreaOfInterest (.bool false)).erase
          areaOfInterest
        else (w.nodes self.ensenso_camera).write useAreaOfInterest (.bool false)
      else
        (((((w.nodes self.ensenso_camera).write useAreaOfInterest (.bool true)).write
          (areaOfInterest ++ [itmLeftTop, .index 0]) (.int roi.x)).write
          (areaOfInterest ++ [itmLeftTop, .index 1]) (.int roi.y)).write
          (areaOfInterest ++ [itmRightBottom, .index 0])
            (.int (wrapInt (roi.x + roi.width)))).write
          (areaOfInterest ++ [itmRightBottom, .index 1])
            (.int (wrapInt (roi.y + roi.height))) := by
  by_cases h0 : wrapInt (roi.width * roi.height) = 0
  · unfold Ensenso.setRegionOfInterest
    simp only [Rect.area, h0, beq_self_eq_true, if_true, NxM.bind_apply, setNx, existsNx]
    split <;> simp_all [eraseNx, NxM.pure_apply]
  · unfold Ensenso.setRegionOfInterest
    simp [Rect.area, h0, NxM.bind_apply, setNx, Rect.tl, Rect.br]

/-- C5, as stated, fails where the `int` arithmetic of `cv::Rect` wraps. The rectangle
`(1, 2, 65536, 65536)` has non-zero area, but `area()` is `0` in `int`: the zero-area branch
runs, the flag is false and no corner is written. For the rectangle
`(2147483647, 2147483647, 1, 1)` the value written to `RightBottom[0]` is `-2147483648`, not
`x + width`. -/
theorem setRegionOfInterest_wraps :
    (65536 : Int) * 65536 ≠ 0 ∧
    ((stereoOnly.setRegionOfInterest { x := 1, y := 2, width := 65536, height := 65536 }
        twoDevices).2.nodes (.camera 0)).read useAreaOfInterest = some (.bool false) ∧
    ((stereoOnly.setRegionOfInterest { x := 1, y := 2, width := 65536, height := 65536 }
        twoDevices).2.nodes (.camera 0)).read (areaOfInterest ++ [itmLeftTop, .index 0]) =
      none ∧
    ((stereoOnly.setRegionOfInterest
        { x := 2147483647, y := 2147483647, width := 1, height := 1 }
        twoDevices).2.nodes (.camera 0)).read (areaOfInterest ++ [itmRightBottom, .index 0]) =
      some (.int (-2147483648)) ∧
    (2147483647 : Int) + 1 ≠ -2147483648 := by
  decide

/-- C5, amended: for every rectangle (four 32-bit `int` fields) whose area `width * height`
and bottom-right corner `x + width`, `y + height` fit in a 32-bit `int`, and every prior item
tree,
`setRegionOfInterest` returns normally; if the rectangle has zero area, afterwards
`UseDisparityMapAreaOfInterest` is false and the item `DisparityMap/AreaOfInterest` does not
exist (no leaf lies at or below it); otherwise `UseDisparityMapAreaOfInterest` is true and
`LeftTop[0]`, `LeftTop[1]`, `RightBottom[0]`, `RightBottom[1]` hold `x`, `y`, `x + width` and
`y + height` of the rectangle. -/
theorem setRegionOfInterest_effect (self : Ensenso) (roi : Rect) (w : NxLib)
    (_hfields : (-2 ^ 31 ≤ roi.x ∧ roi.x < 2 ^ 31) ∧ (-2 ^ 31 ≤ roi.y ∧ roi.y < 2 ^ 31) ∧
      (-2 ^ 31 ≤ roi.width ∧ roi.width < 2 ^ 31) ∧
      (-2 ^ 31 ≤ roi.height ∧ roi.height < 2 ^ 31))
    (harea : -2 ^ 31 ≤ roi.width * roi.height ∧ roi.width * roi.height < 2 ^ 31)
    (hright : -2 ^ 31 ≤ roi.x + roi.width ∧ roi.x + roi.width < 2 ^ 31)
    (hbottom : -2 ^ 31 ≤ roi.y + roi.height ∧ roi.y + roi.height < 2 ^ 31) :
    (self.setRegionOfInterest roi w).1 = .ok () ∧
    (roi.width * roi.height = 0 →
      ((self.setRegionOfInterest roi w).2.nodes self.ensenso_camera).read
        [itmParameters, itmCapture, itmUseDisparityMapAreaOfInterest] = some (.bool false) ∧
      ((self.setRegionOfInterest roi w).2.nodes self.ensenso_camera).itemExists
        [itmParameters, itmDisparityMap, itmAreaOfInterest] = false ∧
      ∀ e ∈ (self.setRegionOfInterest roi w).2.nodes self.ensenso_camera,
        ¬ List.IsPrefix [itmParameters, itmDisparityMap, itmAreaOfInterest] e.1) ∧
    (roi.width * roi.height ≠ 0 →
      ((self.setRegionOfInterest roi w).2.nodes self.ensenso_camera).read
        [itmParameters, itmCapture, itmUseDisparityMapAreaOfInterest] = some (.bool true) ∧
      ((self.setRegionOfInterest roi w).2.nodes self.ensenso_camera).read
        [itmParameters, itmDisparityMap, itmAreaOfInterest, itmLeftTop, .index 0] =
          some (.int roi.x) ∧
      ((self.setRegionOfInterest roi w).2.nodes self.ensenso_camera).read
        [itmParameters, itmDisparityMap, itmAreaOfInterest, itmLeftTop, .index 1] =
          some (.int roi.y) ∧
      ((self.setRegionOfInterest roi w).2.nodes self.ensenso_camera).read
        [itmParameters, itmDisparityMap, itmAreaOfInterest, itmRightBottom, .index 0] =
          some (.int (roi.x + roi.width)) ∧
      ((self.setRegionOfInterest roi w).2.nodes self.ensenso_camera).read
        [itmParameters, itmDisparityMap, itmAreaOfInterest, itmRightBottom, .index 1] =
          some (.int (roi.y + roi.height))) := by
  obtain ⟨hok, hnodes⟩ := setRegionOfInterest_nodes self roi w
  rw [wrapInt_of_fits _ harea, wrapInt_of_fits _ hright, wrapInt_of_fits _ hbottom] at hnodes
  refine ⟨hok, fun h0 => ?_, fun h0 => ?_⟩
  · rw [hnodes, if_pos h0]
    split
    · refine ⟨(NxTree.read_erase_other _ _ _ (by decide)).trans
          (NxTree.read_write_same _ _ _),
        NxTree.itemExists_erase _ _, fun e he hpre => ?_⟩
      have hp : areaOfInterest.isPrefixOf e.1 = true := List.isPrefixOf_iff_prefix.mpr hpre
      have hf := (List.mem_filter.mp he).2
      simp [hp] at hf
    · rename_i hne
      have hfalse : ((w.nodes self.ensenso_camera).write useAreaOfInterest
          (.bool false)).itemExists areaOfInterest = false := by simpa using hne
      refine ⟨NxTree.read_write_same _ _ _, hfalse, fun e he hpre => ?_⟩
      have hany := List.any_eq_false.mp hfalse e he
      exact hany (List.isPrefixOf_iff_prefix.mpr hpre)
  · rw [hnodes, if_neg h0]
    refine ⟨?_, ?_, ?_, ?_, ?_⟩
    · exact (NxTree.read_write_other _ _ _ _ (by decide) (by decide)).trans
        ((NxTree.read_write_other _ _ _ _ (by decide) (by decide)).trans
        ((NxTree.read_write_other _ _ _ _ (by decide) (by decide)).trans
        ((NxTree.read_write_other _ _ _ _ (by decide) (by decide)).trans
        (NxTree.read_write_same _ _ _))))
    · exact (NxTree.read_write_other _ _ _ _ (by decide) (by decide)).trans
        ((NxTree.read_write_other _ _ _ _ (by decide) (by decide)).trans
        ((NxTree.read_write_other _ _ _ _ (by decide) (by decide)).trans
        (NxTree.read_write_same _ _ _)))
    · exact (NxTree.read_write_other _ _ _ _ (by decide) (by decide)).trans
        ((NxTree.read_write_other _ _ _ _ (by decide) (by decide)).trans
        (NxTree.read_write_same _ _ _))
    · exact (NxTree.read_write_other _ _ _ _ (by decide) (by decide)).trans
        (NxTree.read_write_same _ _ _)
    · exact NxTree.read_write_same _ _ _

theorem setRegionOfInterest_effect_witness :
    (((-2 ^ 31 : Int) ≤ 1 ∧ (1 : Int) < 2 ^ 31) ∧ ((-2 ^ 31 : Int) ≤ 2 ∧ (2 : Int) < 2 ^ 31) ∧
      ((-2 ^ 31 : Int) ≤ 3 ∧ (3 : Int) < 2 ^ 31) ∧
      ((-2 ^ 31 : Int) ≤ 7 ∧ (7 : Int) < 2 ^ 31)) ∧
    ((-2 ^ 31 : Int) ≤ 3 * 7 ∧ (3 : Int) * 7 < 2 ^ 31) ∧
    ((-2 ^ 31 : Int) ≤ 1 + 3 ∧ (1 : Int) + 3 < 2 ^ 31) ∧
    ((-2 ^ 31 : Int) ≤ 2 + 7 ∧ (2 : Int) + 7 < 2 ^ 31) ∧
    ((stereoOnly.setRegionOfInterest { x := 1, y := 2, width := 3, height := 7 }
        twoDevices).2.nodes stereoOnly.ensenso_camera).read
      [itmParameters, itmDisparityMap, itmAreaOfInterest, itmRightBottom, .index 0] =
        some (.int (1 + 3)) :=
  ⟨by decide, by decide, by decide, by decide,
    ((setRegionOfInterest_effect stereoOnly { x := 1, y := 2, width := 3, height := 7 }
      twoDevices (by decide) (by decide) (by decide) (by decide)).2.2 (by decide)).2.2.2.1⟩

/-! ## Trigger and retrieve (C3, C4) -/

/-- C4, as stated, fails twice. With `timeout = 4294967295` the command's `Timeout` parameter
is `-1`, not the given timeout. With `overlay` set on an adapter that has no overlay camera,
`retrieve` raises before it issues any command. -/
theorem retrieve_timeout_wraps_and_unbound_overlay :
    (∃ c, (stereoOnly.retrieve quietVendor true 4294967295 true false twoDevices).2.log =
          [.command c] ∧
        c.parameters.read [itmTimeout] = some (.int (-1))) ∧
    (Ensenso.new quietVendor false >>= fun self => self.retrieve quietVendor true 1500 true true)
        twoDevices =
      (.error (.NxError "SerialNumber"),
        { cameras := [stereoA, monoB], nodes := fun _ => [],
          log := [.init, .command (openCommand "A")] }) := by
  refine ⟨⟨_, rfl, by decide⟩, rfl⟩

/-- C4, amended: for every `(trigger, timeout, stereo, overlay)` on an adapter whose stereo
handle is bound if `stereo` is set and whose overlay handle is bound if `overlay` is set,
`retrieve` issues exactly one vendor command: `Capture` when `trigger` is true and `Retrieve`
when it is false, with `Timeout` equal to `int(timeout)` (the given timeout whenever it is below
`2^31`) and a camera list naming exactly the requested devices' serials; when the command
reports no error code and its result holds a boolean for each requested device, `retrieve`
returns false if the entry of some requested device is false and true otherwise. -/
theorem retrieve_command (V : Vendor) (self : Ensenso) (trigger : Bool) (timeout : Nat)
    (stereo overlay : Bool) (w : NxLib) (cs co : Camera)
    (hs : stereo = true → deviceOf w self.ensenso_camera = some cs)
    (ho : overlay = true → deviceOf w self.overlay_camera = some co) :
    ∃ c, (self.retrieve V trigger timeout stereo overlay w).2.log = w.log ++ [.command c] ∧
      c.name = (if trigger then cmdCapture else cmdRetrieve) ∧
      c.parameters.read [itmTimeout] = some (.int (toInt timeout)) ∧
      (timeout < 2 ^ 31 → toInt timeout = timeout) ∧
      c.parameters.array [itmCameras] =
        ((if stereo then [cs.serialNumber] else []) ++
          (if overlay then [co.serialNumber] else [])).map NxValue.string ∧
      ∀ (result : NxTree) (bs bo : Bool), (V.execute w c).1 = .ok result →
        (stereo = true → result.read [.name cs.serialNumber] = some (.bool bs)) →
        (overlay = true → result.read [.name co.serialNumber] = some (.bool bo)) →
        (self.retrieve V trigger timeout stereo overlay w).1 =
          .ok (!(stereo && !bs) && !(overlay && !bo)) := by
  have hset := setCameras_spec self stereo overlay
    (NxTree.write [] [itmTimeout] (.int (toInt timeout))) w cs co hs ho
  have hlog := retrieve_log V self trigger timeout stereo overlay w cs co hs ho
  refine ⟨{ name := if trigger then cmdCapture else cmdRetrieve
            parameters := withCameras (NxTree.write [] [itmTimeout] (.int (toInt timeout)))
              stereo overlay cs co }, hlog.1, rfl, withCameras_read_timeout _ _ _ _ _,
    toInt_of_lt timeout, withCameras_array _ _ _ _ _, ?_⟩
  intro result bs bo hexec hbs hbo
  obtain ⟨w1, hex, hcam, _⟩ := executeNx_ok hexec
  have hcheck := checkResult_spec self stereo overlay result [] w1 cs co bs bo
    (fun h => (deviceOf_congr hcam _).trans (hs h))
    (fun h => (deviceOf_congr hcam _).trans (ho h)) hbs hbo
  unfold Ensenso.retrieve
  rw [NxM.bind_ok hset, NxM.bind_ok hex, hcheck]

theorem retrieve_command_witness :
    (true = true → deviceOf twoDevices bothBound.ensenso_camera = some stereoA) ∧
    (true = true → deviceOf twoDevices bothBound.overlay_camera = some monoB) ∧
    ∃ c, (bothBound.retrieve (replyVendor [([.name "A"], .bool true), ([.name "B"], .bool false)])
          true 1500 true true twoDevices).2.log = twoDevices.log ++ [.command c] ∧
      c.name = (if true then cmdCapture else cmdRetrieve) ∧
      c.parameters.read [itmTimeout] = some (.int (toInt 1500)) ∧
      (1500 < 2 ^ 31 → toInt 1500 = (1500 : Nat)) ∧
      c.parameters.array [itmCameras] =
        ((if true then [stereoA.serialNumber] else []) ++
          (if true then [monoB.serialNumber] else [])).map NxValue.string ∧
      ∀ (result : NxTree) (bs bo : Bool),
        ((replyVendor [([.name "A"], .bool true), ([.name "B"], .bool false)]).execute
          twoDevices c).1 = .ok result →
        (true = true → result.read [.name stereoA.serialNumber] = some (.bool bs)) →
        (true = true → result.read [.name monoB.serialNumber] = some (.bool bo)) →
        (bothBound.retrieve (replyVendor [([.name "A"], .bool true), ([.name "B"], .bool false)])
          true 1500 true true twoDevices).1 = .ok (!(true && !bs) && !(true && !bo)) :=
  ⟨fun _ => rfl, fun _ => rfl,
    retrieve_command (replyVendor [([.name "A"], .bool true), ([.name "B"], .bool false)])
      bothBound true 1500 true true twoDevices stereoA monoB (fun _ => rfl) (fun _ => rfl)⟩

/-! ## Calibration (C6) -/

/-- C7, the code at the failing input: when the `Close` command reports an error code the
destructor raises, and it has not finalized the runtime. -/
theorem destructor_raises_when_close_fails :
    (bothBound.destroy closeFailsVendor twoDevices).1 = .error (.NxCommandError cmdClose 17) ∧
    (bothBound.destroy closeFailsVendor twoDevices).2.log =
      [.command { name := cmdClose, parameters := [] }] ∧
    NxEvent.finalize ∉ (bothBound.destroy closeFailsVendor twoDevices).2.log := by
  decide

/-! ## Failures of the internal capture (C8) -/

/-- C8, as stated, fails: with a capture that reports the requested stereo camera as not
retrieved, `retrieve(true, 1500, true, false)` returns false, and `loadIntensity` with
`capture = true` and `calibrate`, which issue that capture, complete normally all the same:
`loadIntensity` returns the image it returns without a capture. -/
theorem soft_capture_failure_is_discarded :
    (stereoOnly.retrieve notRetrievedVendor true 1500 true false imagesRuntime).1 = .ok false ∧
    (stereoOnly.loadIntensity notRetrievedVendor true imagesRuntime).1 =
      .ok { cols := 2, rows := 1, channels := 3, pixels := [[10, 10, 10], [20, 20, 20]] } ∧
    (stereoOnly.loadIntensity notRetrievedVendor false imagesRuntime).1 =
      .ok { cols := 2, rows := 1, channels := 3, pixels := [[10, 10, 10], [20, 20, 20]] } ∧
    (∃ pose, (stereoOnly.calibrate notRetrievedVendor 1 imagesRuntime).1 = .ok pose) := by
  exact ⟨rfl, rfl, rfl, ⟨_, rfl⟩⟩

theorem calibrateLoop_error {V : Vendor} {self : Ensenso} {w wk w1 : NxLib} {e : Error}
    {k : Nat} (hk : calibrateLoop V self k w = (.ok (), wk))
    (h : calibrateBody V self wk = (.error e, w1)) (j : Nat) :
    calibrateLoop V self (k + 1 + j) w = (.error e, w1) := by
  induction j with
  | zero =>
    show (calibrateLoop V self k >>= fun _ => calibrateBody V self) w = _
    rw [NxM.bind_ok hk, h]
  | succ j ih =>
    show (calibrateLoop V self (k + 1 + j) >>= fun _ => calibrateBody V self) w = _
    rw [NxM.bind_error ih]

theorem calibrateBody_error {V : Vendor} {self : Ensenso} {w w1 : NxLib} {e : Error}
    (h : self.retrieve V true 1500 true false (frontLit self w) = (.error e, w1)) :
    calibrateBody V self w = (.error e, w1) := by
  unfold calibrateBody
  rw [NxM.bind_ok (rfl : setNx self.ensenso_camera (captureParameter itmProjector)
      (.bool false) w = (.ok (), _)),
    NxM.bind_ok (rfl : setNx self.ensenso_camera (captureParameter itmFrontLight)
      (.bool true) _ = (.ok (), _))]
  exact NxM.bind_error h

/-- C8, amended: a vendor error raised by the capture that `loadIntensity` (capture = true),
`loadPointCloud` (capture = true) or `calibrate` (in any iteration of its loop) issues
internally is surfaced to the caller: the operation raises that error and does not go on.
When that capture returns without an error, `loadIntensity` and `loadPointCloud` discard the
boolean `retrieve` returns and go on as they do without a capture. For `calibrate` the capture
of iteration `k + 1` is issued in the state `frontLit self wk`, where `wk` is the state the
first `k` iterations leave. -/
theorem capture_error_is_surfaced (V : Vendor) (defaults : RetrieveDefaults) (self : Ensenso)
    (roi : Rect) :
    (∀ (w w1 : NxLib) (e : Error),
      self.retrieve V true 1500 (!self.found_overlay) self.found_overlay w = (.error e, w1) →
      self.loadIntensity V true w = (.error e, w1)) ∧
    (∀ (w w1 : NxLib) (e : Error),
      self.retrieve V defaults.trigger defaults.timeout defaults.stereo defaults.overlay w =
        (.error e, w1) →
      self.loadPointCloud V defaults roi true w = (.error e, w1)) ∧
    (∀ (num_patterns : Int) (k : Nat) (w w0 wk w1 : NxLib) (r : NxTree) (e : Error),
      (k : Int) < num_patterns →
      executeNx V { name := cmdDiscardPatterns, parameters := [] } w = (.ok r, w0) →
      calibrateLoop V self k w0 = (.ok (), wk) →
      self.retrieve V true 1500 true false (frontLit self wk) = (.error e, w1) →
      self.calibrate V num_patterns w = (.error e, w1)) ∧
    (∀ (u u1 : NxLib) (b : Bool),
      self.retrieve V true 1500 (!self.found_overlay) self.found_overlay u = (.ok b, u1) →
      self.loadIntensity V true u = self.loadIntensity V false u1) ∧
    (∀ (u u1 : NxLib) (b : Bool),
      self.retrieve V defaults.trigger defaults.timeout defaults.stereo defaults.overlay u =
        (.ok b, u1) →
      self.loadPointCloud V defaults roi true u = self.loadPointCloud V defaults roi false u1) := by
  refine ⟨?_, ?_, ?_, ?_, ?_⟩
  · intro w w1 e h1
    unfold Ensenso.loadIntensity
    simp [NxM.bind_apply, h1]
  · intro w w1 e h2
    unfold Ensenso.loadPointCloud
    simp [NxM.bind_apply, h2]
  · intro num_patterns k w w0 wk w1 r e hk hd hloop h3
    obtain ⟨j, hj⟩ : ∃ j, num_patterns.toNat = k + 1 + j :=
      ⟨num_patterns.toNat - (k + 1), by omega⟩
    unfold Ensenso.calibrate
    rw [NxM.bind_ok hd, hj,
      NxM.bind_error (calibrateLoop_error hloop (calibrateBody_error h3) j)]
  · intro u u1 b hb
    unfold Ensenso.loadIntensity
    simp [NxM.bind_apply, hb, NxM.pure_apply]
  · intro u u1 b hb
    unfold Ensenso.loadPointCloud
    simp [NxM.bind_apply, hb, NxM.pure_apply]

/-- The implications of `capture_error_is_surfaced` at concrete runtimes: a vendor whose
captures all fail, for `loadIntensity` and `loadPointCloud`; a vendor whose captures fail from
the second iteration on, for `calibrate` with three patterns. -/
theorem capture_error_is_surfaced_witness :
    stereoOnly.retrieve captureFailsVendor true 1500 (!stereoOnly.found_overlay)
        stereoOnly.found_overlay twoDevices =
      (.error (.NxCommandError cmdCapture 17),
        (stereoOnly.retrieve captureFailsVendor true 1500 true false twoDevices).2) ∧
    stereoOnly.loadIntensity captureFailsVendor true twoDevices =
      (.error (.NxCommandError cmdCapture 17),
        (stereoOnly.retrieve captureFailsVendor true 1500 true false twoDevices).2) ∧
    stereoOnly.loadPointCloud captureFailsVendor stereoDefaults
        { x := 0, y := 0, width := 0, height := 0 } true twoDevices =
      (.error (.NxCommandError cmdCapture 17),
        (stereoOnly.retrieve captureFailsVendor true 1500 true false twoDevices).2) ∧
    ((1 : Nat) : Int) < 3 ∧
    (calibrateLoop laterCaptureFailsVendor stereoOnly 1
      (executeNx laterCaptureFailsVendor { name := cmdDiscardPatterns, parameters := [] }
        twoDevices).2).1 = .ok () ∧
    (stereoOnly.calibrate laterCaptureFailsVendor 3 twoDevices).1 =
      .error (.NxCommandError cmdCapture 17) :=
  have h := capture_error_is_surfaced captureFailsVendor stereoDefaults stereoOnly
    { x := 0, y := 0, width := 0, height := 0 }
  have hc := (capture_error_is_surfaced laterCaptureFailsVendor stereoDefaults stereoOnly
    { x := 0, y := 0, width := 0, height := 0 }).2.2.1 3 1 twoDevices
    (executeNx laterCaptureFailsVendor { name := cmdDiscardPatterns, parameters := [] }
      twoDevices).2
    (calibrateLoop laterCaptureFailsVendor stereoOnly 1
      (executeNx laterCaptureFailsVendor { name := cmdDiscardPatterns, parameters := [] }
        twoDevices).2).2
    (stereoOnly.retrieve laterCaptureFailsVendor true 1500 true false
      (frontLit stereoOnly (calibrateLoop laterCaptureFailsVendor stereoOnly 1
        (executeNx laterCaptureFailsVendor { name := cmdDiscardPatterns, parameters := [] }
          twoDevices).2).2)).2
    [([.name "A"], .bool true)] (.NxCommandError cmdCapture 17) (by decide) rfl rfl rfl
  ⟨rfl, h.1 _ _ _ rfl, h.2.1 _ _ _ rfl, by decide, rfl, by rw [hc]⟩

/-! ## Size of the intensity image (C10) -/

/-- C10, the code at the failing input: on an adapter constructed without overlay,
`loadIntensity(capture = false)` converts the stereo camera's left raw image (2x1 here), while
`getIntensitySize` reads the raw image of the overlay handle, which was never assigned, and
raises. -/
theorem getIntensitySize_ignores_found_overlay :
    (Ensenso.new quietVendor false imagesRuntime).1 = .ok stereoOnly ∧
    (stereoOnly.loadIntensity quietVendor false imagesRuntime).1 =
      .ok { cols := 2, rows := 1, channels := 3, pixels := [[10, 10, 10], [20, 20, 20]] } ∧
    (stereoOnly.getIntensitySize imagesRuntime).1 = .error (.NxError "getBinaryDataInfo") := by
  decide

/-- Where an overlay was found, `getIntensitySize` returns the size of the image that
`loadIntensity(capture = false)` produces. -/
theorem getIntensitySize_of_overlay (V : Vendor) (self : Ensenso) (w w1 : NxLib) (image : Mat)
    (hfound : self.found_overlay = true)
    (hload : self.loadIntensity V false w = (.ok image, w1)) :
    self.getIntensitySize w = (.ok image.size, w) := by
  unfold Ensenso.loadIntensity at hload
  simp only [hfound, if_true, Bool.false_eq_true, if_false, NxM.bind_apply, NxM.pure_apply,
    toCvMat] at hload
  unfold Ensenso.getIntensitySize wrapNxLibException getBinaryDataInfo
  rcases hread : (w.nodes self.overlay_camera).read [itmImages, itmRaw] with _ | v
  · rw [hread] at hload
    simp at hload
  · cases v with
    | binary b =>
      rw [hread] at hload
      simp only [cvtColor] at hload
      split at hload
      · simp only [NxM.pure, Prod.mk.injEq, Except.ok.injEq] at hload
        rw [← hload.1]
        rfl
      · simp [NxM.raise] at hload
    | _ =>
      rw [hread] at hload
      simp at hload

end dr
